import Mathlib

/-!
Verification of the conversation-dashboard program (conv_viz.py) against its
natural-language specification.  The program loads a JSON transcript, validates
it as a list of message records, computes descriptive statistics, and renders
them.  We embed the JSON data model, the validation routine
`parse_conversation`, the session-update step of `main`, the metric
computations of `analyze_conversation`, and the text normalizer
`normalize_text` as executable Lean definitions, and prove the specified
properties about them.
-/

namespace ConvViz

/-- JSON values, the dynamic data flowing through the program.  Objects are
association lists in document order (Python dicts preserve insertion order). -/
inductive JValue where
  | null : JValue
  | bool (b : Bool) : JValue
  | num (n : Int) : JValue
  | str (s : String) : JValue
  | arr (xs : List JValue) : JValue
  | obj (kvs : List (String × JValue)) : JValue

mutual

/-- Decidable equality on JSON values (Python `==` restricted to JSON data,
where cross-type comparisons of interest are all unequal). -/
def JValue.decEq : (a b : JValue) → Decidable (a = b)
  | .null, .null => .isTrue rfl
  | .null, .bool _ => .isFalse nofun
  | .null, .num _ => .isFalse nofun
  | .null, .str _ => .isFalse nofun
  | .null, .arr _ => .isFalse nofun
  | .null, .obj _ => .isFalse nofun
  | .bool _, .null => .isFalse nofun
  | .bool x, .bool y =>
      if h : x = y then .isTrue (by rw [h]) else .isFalse (by intro hh; injection hh; contradiction)
  | .bool _, .num _ => .isFalse nofun
  | .bool _, .str _ => .isFalse nofun
  | .bool _, .arr _ => .isFalse nofun
  | .bool _, .obj _ => .isFalse nofun
  | .num _, .null => .isFalse nofun
  | .num _, .bool _ => .isFalse nofun
  | .num x, .num y =>
      if h : x = y then .isTrue (by rw [h]) else .isFalse (by intro hh; injection hh; contradiction)
  | .num _, .str _ => .isFalse nofun
  | .num _, .arr _ => .isFalse nofun
  | .num _, .obj _ => .isFalse nofun
  | .str _, .null => .isFalse nofun
  | .str _, .bool _ => .isFalse nofun
  | .str _, .num _ => .isFalse nofun
  | .str x, .str y =>
      if h : x = y then .isTrue (by rw [h]) else .isFalse (by intro hh; injection hh; contradiction)
  | .str _, .arr _ => .isFalse nofun
  | .str _, .obj _ => .isFalse nofun
  | .arr _, .null => .isFalse nofun
  | .arr _, .bool _ => .isFalse nofun
  | .arr _, .num _ => .isFalse nofun
  | .arr _, .str _ => .isFalse nofun
  | .arr xs, .arr ys =>
      match JValue.decEqList xs ys with
      | .isTrue h => .isTrue (by rw [h])
      | .isFalse h => .isFalse (by intro hh; injection hh; contradiction)
  | .arr _, .obj _ => .isFalse nofun
  | .obj _, .null => .isFalse nofun
  | .obj _, .bool _ => .isFalse nofun
  | .obj _, .num _ => .isFalse nofun
  | .obj _, .str _ => .isFalse nofun
  | .obj _, .arr _ => .isFalse nofun
  | .obj xs, .obj ys =>
      match JValue.decEqKVs xs ys with
      | .isTrue h => .isTrue (by rw [h])
      | .isFalse h => .isFalse (by intro hh; injection hh; contradiction)

/-- Decidable equality on lists of JSON values. -/
def JValue.decEqList : (xs ys : List JValue) → Decidable (xs = ys)
  | [], [] => .isTrue rfl
  | [], _ :: _ => .isFalse nofun
  | _ :: _, [] => .isFalse nofun
  | x :: xs, y :: ys =>
      match JValue.decEq x y with
      | .isFalse h => .isFalse (by intro hh; injection hh; contradiction)
      | .isTrue h1 =>
        match JValue.decEqList xs ys with
        | .isTrue h2 => .isTrue (by rw [h1, h2])
        | .isFalse h2 => .isFalse (by intro hh; injection hh; contradiction)

/-- Decidable equality on key-value lists of JSON objects. -/
def JValue.decEqKVs : (xs ys : List (String × JValue)) → Decidable (xs = ys)
  | [], [] => .isTrue rfl
  | [], _ :: _ => .isFalse nofun
  | _ :: _, [] => .isFalse nofun
  | (k1, v1) :: xs, (k2, v2) :: ys =>
      if hk : k1 = k2 then
        match JValue.decEq v1 v2 with
        | .isFalse h => .isFalse (by
            intro hh; injection hh with e1 e2; exact h (congrArg Prod.snd e1))
        | .isTrue h1 =>
          match JValue.decEqKVs xs ys with
          | .isTrue h2 => .isTrue (by rw [hk, h1, h2])
          | .isFalse h2 => .isFalse (by intro hh; injection hh; contradiction)
      else .isFalse (by
        intro hh; injection hh with e1 e2; exact hk (congrArg Prod.fst e1))

end

instance : DecidableEq JValue := JValue.decEq

/-- Python substring test: `needle in hay` for strings.  True iff `needle`
occurs contiguously inside `hay`. -/
def containsSub (hay needle : String) : Bool :=
  (List.range (hay.length + 1)).any
    (fun i => decide ((hay.toList.drop i).take needle.length = needle.toList))

/-- Python membership operator `key in container` for a string `key`.
On a dict it tests key presence; on a string it is substring search; on a
list it tests element equality; on `None`, booleans and numbers it raises
`TypeError` (modelled as `Except.error` carrying the message detail). -/
def pyContains (container : JValue) (key : String) : Except String Bool :=
  match container with
  | .obj kvs => .ok (kvs.any (fun kv => decide (kv.1 = key)))
  | .str s => .ok (containsSub s key)
  | .arr xs => .ok (xs.any (fun v => decide (v = .str key)))
  | .null => .error "argument of type NoneType is not iterable"
  | .bool _ => .error "argument of type bool is not iterable"
  | .num _ => .error "argument of type int is not iterable"

/-- The check applied to one message by parse_conversation line 38:
Python evaluates `content not in msg or role not in msg` with
short-circuiting; the result is `true` when both fields are present. -/
def checkMsg (m : JValue) : Except String Bool :=
  match pyContains m "content" with
  | .error e => .error e
  | .ok hasContent =>
      if hasContent then pyContains m "role"
      else .ok false

/-- The validation loop of parse_conversation lines 37-41: stops at the first
message failing the membership check (`ok false`), or propagates the first
raised exception (`error`). -/
def validateMsgs : List JValue → Except String Bool
  | [] => .ok true
  | m :: rest =>
      match checkMsg m with
      | .error e => .error e
      | .ok ok => if ok then validateMsgs rest else .ok false

/-- The user-facing error notices that parse_conversation can emit. -/
inductive ErrMsg where
  /-- Invalid conversation format. Expected a list of messages. -/
  | invalidFormat : ErrMsg
  /-- Invalid message format. Each message must have content and role fields. -/
  | invalidMessage : ErrMsg
  /-- Error parsing data: (detail) -/
  | parsingError (detail : String) : ErrMsg
deriving DecidableEq

/-- Line 31: `data if isinstance(data, list) else []`. -/
def listOrEmpty : JValue → List JValue
  | .arr xs => xs
  | _ => []

/-- parse_conversation (conv_viz.py lines 28-45): takes the decoded JSON root,
returns the accepted message list together with the error notice shown, if
any.  A non-list root is replaced by `[]`; an empty message list triggers the
format error; each element must pass the membership check for both fields;
any exception in the loop is caught and reported as a parsing error.  Every
failing path returns the empty list. -/
def parse_conversation (data : JValue) : List JValue × Option ErrMsg :=
  if (listOrEmpty data).isEmpty then
    ([], some ErrMsg.invalidFormat)
  else
    match validateMsgs (listOrEmpty data) with
    | .error e => ([], some (ErrMsg.parsingError e))
    | .ok false => ([], some ErrMsg.invalidMessage)
    | .ok true => (listOrEmpty data, none)

/-- The per-browser-session state initialized at conv_viz.py lines 9-12. -/
structure SessionState where
  messages : List JValue
  conversation_history : List JValue
deriving DecidableEq

/-- The upload branch of main (conv_viz.py lines 85-92): run
parse_conversation on the decoded data and replace the session state only
when the returned list is non-empty (truthy).  Returns the new state, the
error notice, and whether the success notice was shown. -/
def uploadStep (s : SessionState) (data : JValue) :
    SessionState × Option ErrMsg × Bool :=
  let (msgs, err) := parse_conversation data
  if msgs.isEmpty then (s, err, false)
  else ({ messages := msgs, conversation_history := msgs }, err, true)

/-! ### Analysis (`analyze_conversation`, conv_viz.py lines 47-75)

The analysis is modelled over messages that are JSON objects, the shape the
validated data model guarantees (a message that is not an object would make
the dataframe operations of lines 53-63 raise before any metric is
produced).  Field access `key in msg and msg[key]` on an object is lookup
plus Python truthiness. -/

/-- Dict field lookup: first binding of the key, if present. -/
def JValue.getField (m : JValue) (key : String) : Option JValue :=
  match m with
  | .obj kvs => (kvs.find? (fun kv => decide (kv.1 = key))).map (fun kv => kv.2)
  | _ => none

/-- Python truthiness of a JSON value. -/
def JValue.truthy : JValue → Bool
  | .null => false
  | .bool b => b
  | .num n => decide (n ≠ 0)
  | .str s => !s.isEmpty
  | .arr xs => !xs.isEmpty
  | .obj kvs => !kvs.isEmpty

/-- Line 59: number of messages whose tool_calls field is present and truthy. -/
def tool_calls_count (msgs : List JValue) : Nat :=
  (msgs.filter (fun m =>
    match m.getField "tool_calls" with
    | some v => v.truthy
    | none => false)).length

/-- Line 60: number of messages whose tool_responses field is present and
truthy.  This value is computed by analyze_conversation but does not appear
in its return statement (line 75). -/
def tool_responses_count (msgs : List JValue) : Nat :=
  (msgs.filter (fun m =>
    match m.getField "tool_responses" with
    | some v => v.truthy
    | none => false)).length

/-- The names appended for one message by the loop of lines 66-71: when the
tool_calls field is present and truthy (and a sequence, per the data model),
each entry having a function field contributes `function.get(name, unknown)`;
entries without a function field are skipped. -/
def toolNamesOfMsg (m : JValue) : List JValue :=
  match m.getField "tool_calls" with
  | some (.arr tcs) =>
      if (JValue.arr tcs).truthy then
        tcs.foldr (fun tc acc =>
          match tc.getField "function" with
          | some f =>
              (match f.getField "name" with
               | some v => v
               | none => .str "unknown") :: acc
          | none => acc) []
      else []
  | _ => []

/-- Lines 66-71: the flattened tool-name list across all messages. -/
def collectToolNames (msgs : List JValue) : List JValue :=
  msgs.flatMap toolNamesOfMsg

/-- Distinct values of a list in order of first appearance (the grouping
order pandas uses for object-dtype values). -/
def firstOccs : List JValue → List JValue
  | [] => []
  | x :: xs => x :: (firstOccs xs).filter (fun y => decide (y ≠ x))

/-- Stable insertion keeping counts in descending order: the new pair goes
after every earlier pair with a strictly larger count and before the first
pair with a smaller-or-equal count. -/
def insertByCountDesc (p : JValue × Nat) : List (JValue × Nat) → List (JValue × Nat)
  | [] => [p]
  | q :: qs => if p.2 < q.2 then q :: insertByCountDesc p qs else p :: q :: qs

/-- Stable sort of count pairs by descending count. -/
def sortByCountDesc (l : List (JValue × Nat)) : List (JValue × Nat) :=
  l.foldr insertByCountDesc []

/-- pandas `value_counts`: occurrence count per distinct value, ordered by
descending count. -/
def value_counts (xs : List JValue) : List (JValue × Nat) :=
  sortByCountDesc ((firstOccs xs).map (fun v => (v, xs.count v)))

/-- Line 73: the tool-name distribution, or the absent marker (Python None)
when no names were collected. -/
def tool_distribution (msgs : List JValue) : Option (List (JValue × Nat)) :=
  if collectToolNames msgs = [] then none
  else some (value_counts (collectToolNames msgs))

/-- The role column of the dataframe; rows whose dict lacks the key hold NaN
and are dropped by value_counts and groupby. -/
def roleColumn (msgs : List JValue) : List JValue :=
  msgs.filterMap (fun m => m.getField "role")

/-- `x.str.len()` applied to one content value: the character count for
strings, and — since pandas applies the length function to sequence and
collection elements of an object-dtype column as well — the element count
for sequences and the key count for mappings; NaN (modelled as none) for
the length-less scalars null, booleans and numbers, and for an absent
field.  The content column is modelled at object dtype, the dtype pandas
infers whenever the column holds any null or string value; the corner where
every content across the whole conversation is numeric (pandas then
specializes the dtype and the string accessor raises) is outside this
model. -/
def contentLen (m : JValue) : Option Nat :=
  match m.getField "content" with
  | some (.str s) => some s.length
  | some (.arr xs) => some xs.length
  | some (.obj kvs) => some kvs.length
  | _ => none

/-- pandas `mean` with its default NaN skipping: the mean of the non-NaN
entries, or NaN (none) when every entry is NaN or the list is empty. -/
def meanOpt (xs : List (Option Nat)) : Option ℚ :=
  let vals := xs.filterMap id
  if vals.isEmpty then none
  else some ((vals.sum : ℚ) / (vals.length : ℚ))

/-- Line 63: average content length per role — group rows by role value and
take the NaN-skipping mean of the string lengths of content.  Group order is
not relied upon by any claim; first-appearance order is used here. -/
def avg_length (msgs : List JValue) : List (JValue × Option ℚ) :=
  (firstOccs (roleColumn msgs)).map (fun r =>
    (r, meanOpt ((msgs.filter (fun m => decide (m.getField "role" = some r))).map contentLen)))

/-- analyze_conversation (lines 47-75): the absent marker for an empty
conversation, otherwise the quadruple actually returned at line 75 —
role counts, average length per role, tool-call count, tool distribution.
The tool-response count of line 60 is not part of the result. -/
def analyze_conversation (msgs : List JValue) :
    Option (List (JValue × Nat) × List (JValue × Option ℚ) × Nat ×
      Option (List (JValue × Nat))) :=
  if msgs.isEmpty then none
  else some (value_counts (roleColumn msgs), avg_length msgs,
             tool_calls_count msgs, tool_distribution msgs)

/-! ### Text normalization (`normalize_text`, conv_viz.py lines 14-20)

`re.sub(pattern, repl, text)` with the pattern two asterisks, a lazy
non-empty run of non-newline characters, two asterisks: scan left to right,
replace each leftmost non-overlapping match by its inner group. -/

/-- Test whether the character list starts with the two-asterisk marker;
on success return the characters after it. -/
def closeAt (s : List Char) : Option (List Char) :=
  match s with
  | a :: b :: rest => if a = '*' ∧ b = '*' then some rest else none
  | _ => none

theorem closeAt_length :
    ∀ s rest : List Char, closeAt s = some rest → rest.length + 2 = s.length := by
  intro s rest h
  match s with
  | [] => simp [closeAt] at h
  | [a] => simp [closeAt] at h
  | a :: b :: tl =>
    rw [closeAt] at h
    by_cases hab : a = '*' ∧ b = '*'
    · rw [if_pos hab] at h
      simp only [Option.some.injEq] at h
      subst h
      simp
    · rw [if_neg hab] at h
      exact absurd h (by simp)

/-- Match the tail of the pattern (lazy inner content then the closing
double asterisk) at the start of the character list: consume one non-newline
character at a time, closing at the earliest position where two asterisks
follow.  Returns the inner group and the characters after the match. -/
def scanInner : List Char → Option (List Char × List Char)
  | [] => none
  | c :: rest =>
      if c = '\n' then none
      else
        match closeAt rest with
        | some rest2 => some ([c], rest2)
        | none =>
          match scanInner rest with
          | some (inner, after) => some (c :: inner, after)
          | none => none

theorem scanInner_length :
    ∀ s inner after : List Char,
      scanInner s = some (inner, after) → after.length + 3 ≤ s.length := by
  intro s
  induction s with
  | nil => intro inner after h; simp [scanInner] at h
  | cons c rest ih =>
    intro inner after h
    rw [scanInner] at h
    by_cases hc : c = '\n'
    · rw [if_pos hc] at h
      exact absurd h (by simp)
    · rw [if_neg hc] at h
      cases hclose : closeAt rest with
      | some rest2 =>
        simp only [hclose, Option.some.injEq, Prod.mk.injEq] at h
        obtain ⟨h1, h2⟩ := h
        subst h2
        have := closeAt_length rest rest2 hclose
        simp only [List.length_cons]
        omega
      | none =>
        simp only [hclose] at h
        cases hrec : scanInner rest with
        | some p =>
          obtain ⟨inner0, after0⟩ := p
          simp only [hrec, Option.some.injEq, Prod.mk.injEq] at h
          obtain ⟨h1, h2⟩ := h
          subst h2
          have := ih inner0 after0 hrec
          simp only [List.length_cons]
          omega
        | none =>
          simp [hrec] at h

/-- The full substitution loop of `re.sub`: at each position try to match
the pattern (the opening two asterisks via `closeAt`, then `scanInner`); on
a match emit the inner group and continue after it, otherwise emit one
character and advance one position. -/
def subBold (s : List Char) : List Char :=
  match s with
  | [] => []
  | c :: rest =>
    match hcl : closeAt (c :: rest) with
    | some rest1 =>
      match hsc : scanInner rest1 with
      | some (inner, after) => inner ++ subBold after
      | none => c :: subBold rest
    | none => c :: subBold rest
termination_by s.length
decreasing_by
  · have h1 := closeAt_length _ _ hcl
    have h2 := scanInner_length _ _ _ hsc
    simp only [List.length_cons] at h1 ⊢
    omega
  · simp
  · simp

/-- normalize_text (lines 14-20): falsy input (absent value or empty string)
is returned unchanged; otherwise the bold-markup substitution is applied
globally. -/
def normalize_text : Option String → Option String
  | none => none
  | some s => if s = "" then some s else some (String.mk (subBold s.toList))

/-! ### Derived predicates used to state the specified properties -/

/-- Whether a JSON value is an array (the Python `isinstance(data, list)`
test of line 31). -/
def JValue.isArr : JValue → Bool
  | .arr _ => true
  | _ => false

/-- The shape the data model requires of a message: a mapping carrying both
a content key and a role key. -/
def objHasKeys (m : JValue) : Prop :=
  ∃ kvs, m = JValue.obj kvs ∧
    "content" ∈ kvs.map Prod.fst ∧ "role" ∈ kvs.map Prod.fst

instance (m : JValue) : Decidable (objHasKeys m) :=
  match m with
  | .null => .isFalse (by rintro ⟨kvs, h, -, -⟩; cases h)
  | .bool _ => .isFalse (by rintro ⟨kvs, h, -, -⟩; cases h)
  | .num _ => .isFalse (by rintro ⟨kvs, h, -, -⟩; cases h)
  | .str _ => .isFalse (by rintro ⟨kvs, h, -, -⟩; cases h)
  | .arr _ => .isFalse (by rintro ⟨kvs, h, -, -⟩; cases h)
  | .obj kvs =>
      if h : "content" ∈ kvs.map Prod.fst ∧ "role" ∈ kvs.map Prod.fst then
        .isTrue ⟨kvs, rfl, h.1, h.2⟩
      else
        .isFalse (by
          rintro ⟨kvs2, heq, h1, h2⟩
          injection heq with e
          exact h ⟨e ▸ h1, e ▸ h2⟩)

/-- The property the spec counts for the tool-call metric: the tool_calls
field is present and a non-empty sequence. -/
def presentNonEmptySeq (m : JValue) (key : String) : Bool :=
  match m.getField key with
  | some (.arr (_ :: _)) => true
  | _ => false

/-- The tool-name extraction the claim describes for one tool_calls entry:
read function.name, defaulting to unknown when the name is missing. -/
def claimEntryName (tc : JValue) : JValue :=
  match (tc.getField "function").bind (fun f => f.getField "name") with
  | some v => v
  | none => .str "unknown"

/-- The flattening the claim describes: every tool_calls entry of every
message with a present, truthy tool_calls sequence contributes a name. -/
def claimToolNames (msgs : List JValue) : List JValue :=
  msgs.flatMap (fun m =>
    match m.getField "tool_calls" with
    | some (.arr tcs) =>
        if (JValue.arr tcs).truthy then tcs.map claimEntryName else []
    | _ => [])

/-- No two adjacent asterisks anywhere in the character list. -/
def noDoubleStar : List Char → Bool
  | [] => true
  | [_] => true
  | a :: b :: rest => !(decide (a = '*' ∧ b = '*')) && noDoubleStar (b :: rest)

/-! ### Helper lemmas about validation -/

theorem checkMsg_ok_of_objHasKeys {m : JValue} (h : objHasKeys m) :
    checkMsg m = .ok true := by
  obtain ⟨kvs, rfl, hc, hr⟩ := h
  have hc2 : kvs.any (fun kv => decide (kv.1 = "content")) = true := by
    rw [List.any_eq_true]
    obtain ⟨kv, hkv, he⟩ := List.mem_map.mp hc
    exact ⟨kv, hkv, by simp [he]⟩
  have hr2 : kvs.any (fun kv => decide (kv.1 = "role")) = true := by
    rw [List.any_eq_true]
    obtain ⟨kv, hkv, he⟩ := List.mem_map.mp hr
    exact ⟨kv, hkv, by simp [he]⟩
  simp [checkMsg, pyContains, hc2, hr2]

theorem checkMsg_obj_ne_error {kvs : List (String × JValue)} {e : String} :
    checkMsg (JValue.obj kvs) ≠ .error e := by
  simp only [checkMsg, pyContains]
  split <;> simp

theorem checkMsg_false_of_missing {kvs : List (String × JValue)}
    (h : ¬ objHasKeys (JValue.obj kvs)) : checkMsg (JValue.obj kvs) = .ok false := by
  simp only [checkMsg, pyContains]
  by_cases hc : kvs.any (fun kv => decide (kv.1 = "content")) = true
  · have hr : kvs.any (fun kv => decide (kv.1 = "role")) = false := by
      by_contra hr
      rw [Bool.not_eq_false, List.any_eq_true] at hr
      rw [List.any_eq_true] at hc
      obtain ⟨kvc, hkvc, hec⟩ := hc
      obtain ⟨kvr, hkvr, her⟩ := hr
      simp only [decide_eq_true_eq] at hec her
      exact h ⟨kvs, rfl, List.mem_map.mpr ⟨kvc, hkvc, hec⟩,
        List.mem_map.mpr ⟨kvr, hkvr, her⟩⟩
    simp [hc, hr]
  · rw [Bool.not_eq_true] at hc
    simp [hc]

theorem validateMsgs_ok_iff (msgs : List JValue) :
    validateMsgs msgs = .ok true ↔ ∀ m ∈ msgs, checkMsg m = .ok true := by
  induction msgs with
  | nil => simp [validateMsgs]
  | cons m rest ih =>
    cases hm : checkMsg m with
    | error e =>
      have hred : validateMsgs (m :: rest) = .error e := by rw [validateMsgs, hm]
      rw [hred]
      apply iff_of_false (by simp)
      intro h
      have h2 := h m (List.mem_cons_self m rest)
      rw [hm] at h2
      exact absurd h2 (by simp)
    | ok b =>
      cases b with
      | false =>
        have hred : validateMsgs (m :: rest) = .ok false := by rw [validateMsgs, hm]; rfl
        rw [hred]
        apply iff_of_false (by simp)
        intro h
        have h2 := h m (List.mem_cons_self m rest)
        rw [hm] at h2
        exact absurd h2 (by simp)
      | true =>
        have hred : validateMsgs (m :: rest) = validateMsgs rest := by
          rw [validateMsgs, hm]; rfl
        rw [hred, ih]
        constructor
        · intro h x hx
          rcases List.mem_cons.mp hx with rfl | hx2
          · exact hm
          · exact h x hx2
        · intro h x hx
          exact h x (List.mem_cons_of_mem m hx)

theorem parse_conversation_ok {msgs : List JValue} (hne : msgs ≠ [])
    (hall : ∀ m ∈ msgs, checkMsg m = .ok true) :
    parse_conversation (.arr msgs) = (msgs, none) := by
  rw [parse_conversation]
  simp only [listOrEmpty, List.isEmpty_iff]
  rw [if_neg hne, (validateMsgs_ok_iff msgs).mpr hall]

theorem uploadStep_ok {msgs : List JValue} (s : SessionState) (hne : msgs ≠ [])
    (hall : ∀ m ∈ msgs, checkMsg m = .ok true) :
    uploadStep s (.arr msgs) = (⟨msgs, msgs⟩, none, true) := by
  rw [uploadStep, parse_conversation_ok hne hall]
  simp [List.isEmpty_iff, hne]

theorem uploadStep_of_rejected {data : JValue} {e : ErrMsg} (s : SessionState)
    (h : parse_conversation data = ([], some e)) :
    uploadStep s data = (s, some e, false) := by
  rw [uploadStep, h]
  rfl

theorem validateMsgs_cons_ok_true {m : JValue} {rest : List JValue}
    (hm : checkMsg m = .ok true) : validateMsgs (m :: rest) = validateMsgs rest := by
  rw [validateMsgs, hm]; rfl

theorem validateMsgs_cons_ok_false {m : JValue} {rest : List JValue}
    (hm : checkMsg m = .ok false) : validateMsgs (m :: rest) = .ok false := by
  rw [validateMsgs, hm]; rfl

theorem validateMsgs_cons_error {m : JValue} {rest : List JValue} {d : String}
    (hm : checkMsg m = .error d) : validateMsgs (m :: rest) = .error d := by
  rw [validateMsgs, hm]

theorem validateMsgs_false {msgs : List JValue}
    (hobj : ∀ m ∈ msgs, ∃ kvs, m = JValue.obj kvs)
    (hbad : ∃ m ∈ msgs, ¬ objHasKeys m) :
    validateMsgs msgs = .ok false := by
  induction msgs with
  | nil => simp at hbad
  | cons m rest ih =>
    obtain ⟨kvs, rfl⟩ := hobj _ (List.mem_cons_self m rest)
    by_cases hm : objHasKeys (JValue.obj kvs)
    · rw [validateMsgs_cons_ok_true (checkMsg_ok_of_objHasKeys hm)]
      have hrest : ∃ x ∈ rest, ¬ objHasKeys x := by
        obtain ⟨x, hx, hnx⟩ := hbad
        rcases List.mem_cons.mp hx with rfl | hx2
        · exact absurd hm hnx
        · exact ⟨x, hx2, hnx⟩
      exact ih (fun x hx => hobj x (List.mem_cons_of_mem _ hx)) hrest
    · exact validateMsgs_cons_ok_false (checkMsg_false_of_missing hm)

theorem validateMsgs_error {pre : List JValue} {bad : JValue} {rest : List JValue}
    {d : String} (hpre : ∀ m ∈ pre, checkMsg m = .ok true)
    (hbad : pyContains bad "content" = .error d) :
    validateMsgs (pre ++ bad :: rest) = .error d := by
  induction pre with
  | nil =>
    rw [List.nil_append]
    exact validateMsgs_cons_error (by rw [checkMsg, hbad])
  | cons p ps ih =>
    rw [List.cons_append,
      validateMsgs_cons_ok_true (hpre p (List.mem_cons_self p ps))]
    exact ih (fun x hx => hpre x (List.mem_cons_of_mem _ hx))

theorem parse_conversation_msgError {msgs : List JValue} (hne : msgs ≠ [])
    (h : validateMsgs msgs = .ok false) :
    parse_conversation (.arr msgs) = ([], some ErrMsg.invalidMessage) := by
  rw [parse_conversation]
  simp only [listOrEmpty, List.isEmpty_iff]
  rw [if_neg hne, h]

theorem parse_conversation_excError {msgs : List JValue} {d : String} (hne : msgs ≠ [])
    (h : validateMsgs msgs = .error d) :
    parse_conversation (.arr msgs) = ([], some (ErrMsg.parsingError d)) := by
  rw [parse_conversation]
  simp only [listOrEmpty, List.isEmpty_iff]
  rw [if_neg hne, h]

/-! ### Helper lemmas about the distribution machinery -/

theorem insertByCountDesc_perm (p : JValue × Nat) (l : List (JValue × Nat)) :
    (insertByCountDesc p l).Perm (p :: l) := by
  induction l with
  | nil => rfl
  | cons q qs ih =>
    rw [insertByCountDesc]
    split
    · exact ((ih.cons q).trans (List.Perm.swap p q qs))
    · rfl

theorem sortByCountDesc_perm (l : List (JValue × Nat)) :
    (sortByCountDesc l).Perm l := by
  induction l with
  | nil => rfl
  | cons p ps ih =>
    rw [sortByCountDesc, List.foldr_cons]
    exact (insertByCountDesc_perm p _).trans (ih.cons p)

theorem pairwise_insertByCountDesc (p : JValue × Nat) (l : List (JValue × Nat))
    (h : l.Pairwise (fun a b => b.2 ≤ a.2)) :
    (insertByCountDesc p l).Pairwise (fun a b => b.2 ≤ a.2) := by
  induction l with
  | nil => simp [insertByCountDesc]
  | cons q qs ih =>
    rw [insertByCountDesc]
    rw [List.pairwise_cons] at h
    split
    · rename_i hlt
      rw [List.pairwise_cons]
      refine ⟨?_, ih h.2⟩
      intro x hx
      rcases List.mem_cons.mp ((insertByCountDesc_perm p qs).mem_iff.mp hx) with rfl | hxq
      · omega
      · exact h.1 x hxq
    · rename_i hge
      rw [List.pairwise_cons]
      refine ⟨?_, List.pairwise_cons.mpr h⟩
      intro x hx
      rcases List.mem_cons.mp hx with rfl | hxq
      · omega
      · have := h.1 x hxq
        omega

theorem pairwise_sortByCountDesc (l : List (JValue × Nat)) :
    (sortByCountDesc l).Pairwise (fun a b => b.2 ≤ a.2) := by
  induction l with
  | nil => simp [sortByCountDesc]
  | cons p ps ih =>
    rw [sortByCountDesc, List.foldr_cons]
    exact pairwise_insertByCountDesc p _ ih

theorem mem_firstOccs (v : JValue) : ∀ xs : List JValue, v ∈ firstOccs xs ↔ v ∈ xs := by
  intro xs
  induction xs with
  | nil => simp [firstOccs]
  | cons x xs ih =>
    rw [firstOccs]
    simp only [List.mem_cons, List.mem_filter, decide_eq_true_eq]
    constructor
    · rintro (rfl | ⟨hmem, _⟩)
      · exact Or.inl rfl
      · exact Or.inr (ih.mp hmem)
    · rintro (rfl | hmem)
      · exact Or.inl rfl
      · by_cases hvx : v = x
        · exact Or.inl hvx
        · exact Or.inr ⟨ih.mpr hmem, hvx⟩

theorem mem_value_counts {xs : List JValue} {v : JValue} {n : Nat} :
    (v, n) ∈ value_counts xs ↔ v ∈ xs ∧ n = xs.count v := by
  rw [value_counts, (sortByCountDesc_perm _).mem_iff]
  simp only [List.mem_map]
  constructor
  · rintro ⟨w, hw, heq⟩
    injection heq with e1 e2
    subst e1
    exact ⟨(mem_firstOccs w xs).mp hw, e2.symm⟩
  · rintro ⟨hv, rfl⟩
    exact ⟨v, (mem_firstOccs v xs).mpr hv, rfl⟩

/-! ### Helper lemmas about the metric predicates -/

theorem field_truthy_eq_presentNonEmptySeq (m : JValue) (key : String)
    (h : ∀ v, m.getField key = some v → v.isArr = true) :
    (match m.getField key with
     | some v => v.truthy
     | none => false) = presentNonEmptySeq m key := by
  cases hm : m.getField key with
  | none => simp [presentNonEmptySeq, hm]
  | some v =>
    have hv := h v hm
    cases v with
    | arr xs =>
      cases xs with
      | nil => simp [presentNonEmptySeq, hm, JValue.truthy]
      | cons y ys => simp [presentNonEmptySeq, hm, JValue.truthy]
    | null => simp [JValue.isArr] at hv
    | bool b => simp [JValue.isArr] at hv
    | num n => simp [JValue.isArr] at hv
    | str s => simp [JValue.isArr] at hv
    | obj kvs => simp [JValue.isArr] at hv

theorem tool_calls_count_eq_spec (msgs : List JValue)
    (h : ∀ m ∈ msgs, ∀ v, m.getField "tool_calls" = some v → v.isArr = true) :
    tool_calls_count msgs =
      (msgs.filter (fun m => presentNonEmptySeq m "tool_calls")).length := by
  rw [tool_calls_count]
  congr 1
  apply List.filter_congr
  intro m hm
  exact field_truthy_eq_presentNonEmptySeq m "tool_calls" (h m hm)

theorem tool_responses_count_eq_spec (msgs : List JValue)
    (h : ∀ m ∈ msgs, ∀ v, m.getField "tool_responses" = some v → v.isArr = true) :
    tool_responses_count msgs =
      (msgs.filter (fun m => presentNonEmptySeq m "tool_responses")).length := by
  rw [tool_responses_count]
  congr 1
  apply List.filter_congr
  intro m hm
  exact field_truthy_eq_presentNonEmptySeq m "tool_responses" (h m hm)

theorem avg_length_mem_none (msgs : List JValue) (r : JValue)
    (hr : r ∈ roleColumn msgs)
    (hbad : ∀ m ∈ msgs, m.getField "role" = some r → contentLen m = none) :
    (r, (none : Option ℚ)) ∈ avg_length msgs := by
  rw [avg_length]
  apply List.mem_map.mpr
  refine ⟨r, (mem_firstOccs r _).mpr hr, ?_⟩
  have hnil :
      ((msgs.filter (fun m => decide (m.getField "role" = some r))).map
        contentLen).filterMap id = [] := by
    rw [List.filterMap_eq_nil_iff]
    intro o ho
    obtain ⟨m, hm, rfl⟩ := List.mem_map.mp ho
    have hmem := List.mem_filter.mp hm
    exact hbad m hmem.1 (of_decide_eq_true hmem.2)
  rw [meanOpt, hnil]
  rfl

/-! ### Helper lemmas about normalization -/

theorem closeAt_none_of_noDoubleStar {s : List Char} (h : noDoubleStar s = true) :
    closeAt s = none := by
  match s with
  | [] => rfl
  | [a] => rfl
  | a :: b :: rest =>
    rw [closeAt]
    rw [noDoubleStar] at h
    rw [Bool.and_eq_true] at h
    rw [if_neg]
    have := h.1
    rw [Bool.not_eq_true'] at this
    exact of_decide_eq_false this

theorem noDoubleStar_tail {a : Char} {s : List Char}
    (h : noDoubleStar (a :: s) = true) : noDoubleStar s = true := by
  match s with
  | [] => rfl
  | b :: rest =>
    rw [noDoubleStar, Bool.and_eq_true] at h
    exact h.2

theorem subBold_nil : subBold [] = [] := by
  rw [subBold.eq_def]

theorem subBold_cons_of_closeAt_none {c : Char} {rest : List Char}
    (h : closeAt (c :: rest) = none) : subBold (c :: rest) = c :: subBold rest := by
  rw [subBold.eq_def]
  split
  · rename_i heq
    exact absurd heq (by simp)
  · rename_i c2 rest2 heq
    injection heq with e1 e2
    subst e1
    subst e2
    split
    · rename_i rest1 hcl
      rw [h] at hcl
      exact absurd hcl (by simp)
    · rfl

theorem subBold_id_of_noDoubleStar :
    ∀ s : List Char, noDoubleStar s = true → subBold s = s := by
  intro s
  induction s with
  | nil => intro _; exact subBold_nil
  | cons c rest ih =>
    intro h
    rw [subBold_cons_of_closeAt_none (closeAt_none_of_noDoubleStar h)]
    rw [ih (noDoubleStar_tail h)]

/-! ### Inversion lemmas for accepted uploads -/

/-- Whether a JSON value is an object (a Python mapping). -/
def JValue.isObj : JValue → Bool
  | .obj _ => true
  | _ => false

theorem exists_obj_of_isObj {m : JValue} (h : m.isObj = true) :
    ∃ kvs, m = JValue.obj kvs := by
  cases m with
  | obj kvs => exact ⟨kvs, rfl⟩
  | null => exact absurd h (by simp [JValue.isObj])
  | bool b => exact absurd h (by simp [JValue.isObj])
  | num n => exact absurd h (by simp [JValue.isObj])
  | str s => exact absurd h (by simp [JValue.isObj])
  | arr xs => exact absurd h (by simp [JValue.isObj])

theorem objHasKeys_of_checkMsg_ok {kvs : List (String × JValue)}
    (h : checkMsg (JValue.obj kvs) = .ok true) : objHasKeys (JValue.obj kvs) := by
  by_contra hn
  rw [checkMsg_false_of_missing hn] at h
  exact absurd h (by simp)

theorem parse_ok_inv {data : JValue} {msgs : List JValue}
    (h : parse_conversation data = (msgs, none)) :
    msgs = listOrEmpty data ∧ validateMsgs msgs = .ok true := by
  rw [parse_conversation] at h
  split at h
  · exact absurd h (by simp)
  · split at h
    · exact absurd h (by simp)
    · exact absurd h (by simp)
    · rename_i heq
      injection h with h1 h2
      subst h1
      exact ⟨rfl, heq⟩

/-- The data-model condition that a metric field, when present, is a
sequence. -/
def toolFieldIsSeq (m : JValue) (key : String) : Bool :=
  match m.getField key with
  | some v => v.isArr
  | none => true

theorem isArr_of_toolFieldIsSeq {m : JValue} {key : String} {v : JValue}
    (h : toolFieldIsSeq m key = true) (hv : m.getField key = some v) :
    v.isArr = true := by
  rw [toolFieldIsSeq, hv] at h
  exact h

theorem string_mk_toList (s : String) : String.mk s.toList = s := rfl

/-! ## The specified properties (claims C1-C10) -/

/-- A well-formed message used as prior session content in counterexamples. -/
def oldMsg : JValue :=
  JValue.obj [("role", JValue.str "user"), ("content", JValue.str "old")]

/-- C1, counterexample: the claim asserts that validation succeeds for every
list of well-formed mappings, including the empty list; but parse_conversation
treats the empty list as falsy and rejects it with the invalid-format error,
returning the rejection marker, so the session state is left unchanged and no
success notice is shown. -/
theorem C1_counterexample :
    parse_conversation (JValue.arr []) = ([], some ErrMsg.invalidFormat) ∧
    uploadStep ⟨[oldMsg], [oldMsg]⟩ (JValue.arr []) =
      (⟨[oldMsg], [oldMsg]⟩, some ErrMsg.invalidFormat, false) :=
  ⟨rfl, rfl⟩

/-- C1 (amended): for every NON-empty list of mappings each containing both a
role key and a content key, validation succeeds and returns the input
sequence itself — preserving element order and element count exactly — and
the upload replaces the session state with it; the empty list is instead
rejected with the invalid-format error. -/
theorem C1_valid_upload (msgs : List JValue) (s : SessionState)
    (hne : msgs ≠ []) (hvalid : ∀ m ∈ msgs, objHasKeys m) :
    parse_conversation (JValue.arr msgs) = (msgs, none) ∧
    uploadStep s (JValue.arr msgs) = (⟨msgs, msgs⟩, none, true) := by
  have hall : ∀ m ∈ msgs, checkMsg m = .ok true :=
    fun m hm => checkMsg_ok_of_objHasKeys (hvalid m hm)
  exact ⟨parse_conversation_ok hne hall, uploadStep_ok s hne hall⟩

/-- C1, witness: the amended statement applied to a concrete one-message
upload. -/
theorem C1_valid_upload_witness :
    parse_conversation
        (JValue.arr [JValue.obj [("role", JValue.str "user"),
          ("content", JValue.str "hi")]]) =
      ([JValue.obj [("role", JValue.str "user"), ("content", JValue.str "hi")]],
        none) ∧
    uploadStep ⟨[], []⟩
        (JValue.arr [JValue.obj [("role", JValue.str "user"),
          ("content", JValue.str "hi")]]) =
      (⟨[JValue.obj [("role", JValue.str "user"), ("content", JValue.str "hi")]],
        [JValue.obj [("role", JValue.str "user"), ("content", JValue.str "hi")]]⟩,
        none, true) :=
  C1_valid_upload _ _ (by decide) (by decide)

/-- A string element that passes the membership check for both fields by
substring search, although it is not a mapping and has no keys at all. -/
def strMsg : JValue := JValue.str "content and role data"

/-- C2, counterexample: the claim asserts that every element of the accepted
Conversation has both a role key and a content key; but a list whose element
is a plain string containing both words as substrings is accepted wholesale
and installed in the session, although that element has no role or content
field. -/
theorem C2_counterexample :
    uploadStep ⟨[], []⟩ (JValue.arr [strMsg]) =
      (⟨[strMsg], [strMsg]⟩, none, true) ∧
    strMsg.getField "role" = none ∧
    strMsg.getField "content" = none ∧
    strMsg.isObj = false := by
  refine ⟨?_, rfl, rfl, rfl⟩
  decide

/-- C2 (amended): every MAPPING element of the session's accepted
Conversation has both role and content keys present (values may be empty);
non-mapping elements passing the membership check may also be admitted.  If
any element of an uploaded list of mappings lacks either key, the whole
batch is rejected all-or-nothing — no element is admitted, the prior
conversation state is unchanged — and the single invalid-message-format
error is reported. -/
theorem C2_invariant_and_rejection :
    (∀ data msgs, parse_conversation data = (msgs, none) →
      ∀ m ∈ msgs, m.isObj = true → objHasKeys m) ∧
    (∀ msgs s, msgs ≠ [] → (∀ m ∈ msgs, m.isObj = true) →
      (∃ m ∈ msgs, ¬ objHasKeys m) →
      parse_conversation (JValue.arr msgs) = ([], some ErrMsg.invalidMessage) ∧
      uploadStep s (JValue.arr msgs) = (s, some ErrMsg.invalidMessage, false)) := by
  constructor
  · intro data msgs h m hm hobj
    obtain ⟨-, hval⟩ := parse_ok_inv h
    obtain ⟨kvs, rfl⟩ := exists_obj_of_isObj hobj
    exact objHasKeys_of_checkMsg_ok ((validateMsgs_ok_iff msgs).mp hval _ hm)
  · intro msgs s hne hobj hbad
    have hv := validateMsgs_false
      (fun m hm => exists_obj_of_isObj (hobj m hm)) hbad
    have hp := parse_conversation_msgError hne hv
    exact ⟨hp, uploadStep_of_rejected s hp⟩

/-- C2, witness: the amended statement at a concrete upload — a list holding
one valid mapping and one mapping lacking the content key is wholly
rejected with the invalid-message error and the session is untouched. -/
theorem C2_invariant_and_rejection_witness :
    parse_conversation
        (JValue.arr [JValue.obj [("role", JValue.str "user"),
            ("content", JValue.str "hi")],
          JValue.obj [("role", JValue.str "assistant")]]) =
      ([], some ErrMsg.invalidMessage) ∧
    uploadStep ⟨[oldMsg], [oldMsg]⟩
        (JValue.arr [JValue.obj [("role", JValue.str "user"),
            ("content", JValue.str "hi")],
          JValue.obj [("role", JValue.str "assistant")]]) =
      (⟨[oldMsg], [oldMsg]⟩, some ErrMsg.invalidMessage, false) :=
  C2_invariant_and_rejection.2 _ ⟨[oldMsg], [oldMsg]⟩ (by decide) (by decide)
    ⟨JValue.obj [("role", JValue.str "assistant")], by decide, by decide⟩

/-- C3: for every JSON root value that is not a list — an object, a number,
a string, a boolean or null — validation fails with the invalid-format error
and returns the rejection marker, and the session state is exactly what it
was before the call. -/
theorem C3_nonlist_rejected (data : JValue) (s : SessionState)
    (h : data.isArr = false) :
    parse_conversation data = ([], some ErrMsg.invalidFormat) ∧
    uploadStep s data = (s, some ErrMsg.invalidFormat, false) := by
  have hempty : listOrEmpty data = [] := by
    cases data with
    | arr xs => exact absurd h (by simp [JValue.isArr])
    | null => rfl
    | bool b => rfl
    | num n => rfl
    | str t => rfl
    | obj kvs => rfl
  have hp : parse_conversation data = ([], some ErrMsg.invalidFormat) := by
    rw [parse_conversation, hempty]
    rfl
  exact ⟨hp, uploadStep_of_rejected s hp⟩

/-- C3, witness: an object root is rejected with the invalid-format error
and the prior non-empty session survives. -/
theorem C3_nonlist_rejected_witness :
    parse_conversation (JValue.obj [("a", JValue.num 1)]) =
      ([], some ErrMsg.invalidFormat) ∧
    uploadStep ⟨[oldMsg], [oldMsg]⟩ (JValue.obj [("a", JValue.num 1)]) =
      (⟨[oldMsg], [oldMsg]⟩, some ErrMsg.invalidFormat, false) :=
  C3_nonlist_rejected _ _ rfl

/-- C9: the required-field check uses the Python membership operator, which
is substring search on strings; so a non-empty list whose elements are all
strings each containing both required words as substrings passes validation
although no element is a mapping, and the whole list is admitted as the
session Conversation. -/
theorem C9_strings_pass (msgs : List JValue) (s : SessionState)
    (hne : msgs ≠ [])
    (hstr : ∀ m ∈ msgs, ∃ t, m = JValue.str t ∧
      containsSub t "content" = true ∧ containsSub t "role" = true) :
    parse_conversation (JValue.arr msgs) = (msgs, none) ∧
    uploadStep s (JValue.arr msgs) = (⟨msgs, msgs⟩, none, true) := by
  have hall : ∀ m ∈ msgs, checkMsg m = .ok true := by
    intro m hm
    obtain ⟨t, rfl, hc, hr⟩ := hstr m hm
    simp [checkMsg, pyContains, hc, hr]
  exact ⟨parse_conversation_ok hne hall, uploadStep_ok s hne hall⟩

/-- C9, witness: a singleton list holding one string with both substrings is
admitted as the session Conversation. -/
theorem C9_strings_pass_witness :
    parse_conversation (JValue.arr [JValue.str "the content of the role"]) =
      ([JValue.str "the content of the role"], none) ∧
    uploadStep ⟨[], []⟩ (JValue.arr [JValue.str "the content of the role"]) =
      (⟨[JValue.str "the content of the role"],
        [JValue.str "the content of the role"]⟩, none, true) :=
  C9_strings_pass _ _ (by decide)
    (by
      intro m hm
      rw [List.mem_singleton] at hm
      subst hm
      exact ⟨_, rfl, by decide, by decide⟩)

/-- C10, counterexample: the claim asserts the generic parsing-error message
for EVERY list containing an element that does not support the membership
operator; but when an earlier element already fails the field check, the
loop stops there and reports the invalid-message error instead — the number
5 is never reached. -/
theorem C10_counterexample :
    parse_conversation (JValue.arr [JValue.obj [], JValue.num 5]) =
      ([], some ErrMsg.invalidMessage) := by
  decide

/-- C10 (amended): for every input list containing an element that does not
support the membership operator, where every element before it passes the
field check, the membership test raises, the broad handler catches the
exception, the generic parsing-error message carrying its detail is reported
instead of the missing-field error, and the rejection marker is returned so
the prior session state is preserved. -/
theorem C10_parsing_error (pre rest : List JValue) (bad : JValue)
    (s : SessionState) (d : String)
    (hpre : ∀ m ∈ pre, checkMsg m = .ok true)
    (hbad : pyContains bad "content" = .error d) :
    parse_conversation (JValue.arr (pre ++ bad :: rest)) =
      ([], some (ErrMsg.parsingError d)) ∧
    uploadStep s (JValue.arr (pre ++ bad :: rest)) =
      (s, some (ErrMsg.parsingError d), false) := by
  have hne : pre ++ bad :: rest ≠ [] := by simp
  have hp := parse_conversation_excError hne (validateMsgs_error hpre hbad)
  exact ⟨hp, uploadStep_of_rejected s hp⟩

/-- C10, witness: uploading the singleton list holding the number 5 reports
the generic parsing error carrying the TypeError detail and leaves the
prior session intact. -/
theorem C10_parsing_error_witness :
    parse_conversation (JValue.arr [JValue.num 5]) =
      ([], some (ErrMsg.parsingError "argument of type int is not iterable")) ∧
    uploadStep ⟨[oldMsg], [oldMsg]⟩ (JValue.arr [JValue.num 5]) =
      (⟨[oldMsg], [oldMsg]⟩,
        some (ErrMsg.parsingError "argument of type int is not iterable"),
        false) :=
  C10_parsing_error [] [] (JValue.num 5) ⟨[oldMsg], [oldMsg]⟩ _
    (by intro m hm; exact absurd hm (by simp)) rfl

/-- One tool-call entry invoking the named function. -/
def fnEntry (name : String) : JValue :=
  JValue.obj [("function", JValue.obj [("name", JValue.str name)])]

/-- One tool-call entry whose function object lacks a name. -/
def fnEntryNoName : JValue := JValue.obj [("function", JValue.obj [])]

/-- The conversation of the C4 example: the three tool-call entries of the
spec spread across two messages. -/
def exMsgsC4 : List JValue :=
  [JValue.obj [("role", JValue.str "assistant"), ("content", JValue.str ""),
    ("tool_calls", JValue.arr [fnEntry "search", fnEntryNoName])],
   JValue.obj [("role", JValue.str "assistant"), ("content", JValue.str ""),
    ("tool_calls", JValue.arr [fnEntry "search"])]]

/-- A conversation whose single tool-call entry has no function field. -/
def msgsC4bad : List JValue :=
  [JValue.obj [("role", JValue.str "assistant"), ("content", JValue.str ""),
    ("tool_calls", JValue.arr [JValue.obj []])]]

/-- C4, counterexample: the claim asserts every tool_calls entry contributes
a name, defaulting to unknown when function.name is missing; but an entry
with no function field at all is skipped entirely by the loop — the
distribution the claim prescribes would be unknown: 1, while the code
collects nothing and returns the absent marker. -/
theorem C4_counterexample :
    tool_distribution msgsC4bad = none ∧
    value_counts (claimToolNames msgsC4bad) = [(JValue.str "unknown", 1)] := by
  decide

/-- C4 (amended): the tool-name distribution flattens every tool_calls entry
across every message with a non-empty tool_calls field; every entry carrying
a function field contributes function.name, defaulting to unknown when the
name is missing, while entries without a function field are skipped; the
distribution counts occurrences per distinct name in descending order of
count — on the spec example the result is search: 2, unknown: 1 — and when
no names are collected anywhere the result is the explicit absent marker. -/
theorem C4_tool_distribution :
    (tool_distribution exMsgsC4 =
      some [(JValue.str "search", 2), (JValue.str "unknown", 1)]) ∧
    (∀ msgs, collectToolNames msgs = [] → tool_distribution msgs = none) ∧
    (∀ msgs d, tool_distribution msgs = some d →
      d.Pairwise (fun a b => b.2 ≤ a.2) ∧
      ∀ v n, ((v, n) ∈ d ↔ v ∈ collectToolNames msgs ∧
        n = (collectToolNames msgs).count v)) := by
  refine ⟨by decide, ?_, ?_⟩
  · intro msgs h
    rw [tool_distribution, if_pos h]
  · intro msgs d hd
    rw [tool_distribution] at hd
    split at hd
    · exact absurd hd (by simp)
    · injection hd with hd2
      subst hd2
      constructor
      · rw [value_counts]
        exact pairwise_sortByCountDesc _
      · exact fun v n => mem_value_counts

/-- C4, witness: the general distribution facts applied to the concrete
example conversation. -/
theorem C4_tool_distribution_witness :
    ([(JValue.str "search", 2), (JValue.str "unknown", 1)] :
        List (JValue × Nat)).Pairwise (fun a b => b.2 ≤ a.2) ∧
    ∀ v n, ((v, n) ∈ ([(JValue.str "search", 2), (JValue.str "unknown", 1)] :
        List (JValue × Nat)) ↔
      v ∈ collectToolNames exMsgsC4 ∧ n = (collectToolNames exMsgsC4).count v) :=
  C4_tool_distribution.2.2 exMsgsC4 _ (by decide)

/-- C5: the tool-call count equals the number of messages whose tool_calls
field is present and non-empty; a message with the empty sequence
contributes 0, a message with one or several entries contributes exactly 1,
and a message without the key contributes 0. -/
theorem C5_tool_call_count (msgs : List JValue)
    (harr : ∀ m ∈ msgs, toolFieldIsSeq m "tool_calls" = true) :
    tool_calls_count msgs =
      (msgs.filter (fun m => presentNonEmptySeq m "tool_calls")).length ∧
    tool_calls_count [JValue.obj [("tool_calls", JValue.arr [])]] = 0 ∧
    tool_calls_count [JValue.obj [("tool_calls", JValue.arr [fnEntry "a"])]] = 1 ∧
    tool_calls_count [JValue.obj [("tool_calls",
      JValue.arr [fnEntry "a", fnEntry "b", fnEntry "c"])]] = 1 ∧
    tool_calls_count [JValue.obj [("role", JValue.str "user")]] = 0 :=
  ⟨tool_calls_count_eq_spec msgs
      (fun m hm v hv => isArr_of_toolFieldIsSeq (harr m hm) hv),
    rfl, rfl, rfl, rfl⟩

/-- C5, witness: the count identity at a concrete four-message conversation
exercising all three cases. -/
theorem C5_tool_call_count_witness :
    tool_calls_count
        [JValue.obj [("tool_calls", JValue.arr [])],
         JValue.obj [("tool_calls", JValue.arr [fnEntry "a", fnEntry "b"])],
         JValue.obj [("role", JValue.str "user")],
         JValue.obj [("tool_calls", JValue.arr [fnEntry "c"])]] =
      ([JValue.obj [("tool_calls", JValue.arr [])],
         JValue.obj [("tool_calls", JValue.arr [fnEntry "a", fnEntry "b"])],
         JValue.obj [("role", JValue.str "user")],
         JValue.obj [("tool_calls", JValue.arr [fnEntry "c"])]].filter
        (fun m => presentNonEmptySeq m "tool_calls")).length ∧
    tool_calls_count [JValue.obj [("tool_calls", JValue.arr [])]] = 0 ∧
    tool_calls_count [JValue.obj [("tool_calls", JValue.arr [fnEntry "a"])]] = 1 ∧
    tool_calls_count [JValue.obj [("tool_calls",
      JValue.arr [fnEntry "a", fnEntry "b", fnEntry "c"])]] = 1 ∧
    tool_calls_count [JValue.obj [("role", JValue.str "user")]] = 0 :=
  C5_tool_call_count _ (by decide)

/-- The conversation of the C6 counterexample: one message carrying one
non-empty tool_responses field and no tool_calls. -/
def msgsC6 : List JValue :=
  [JValue.obj [("role", JValue.str "tool"), ("content", JValue.str "ok"),
    ("tool_responses", JValue.arr [JValue.obj []])]]

/-- C6, counterexample: the claim asserts the analysis produces a
tool-response count among its results; but the quadruple actually returned
carries role counts, average lengths, the tool-call count and the
distribution only — here the single scalar slot holds the tool-call count 0
while the symmetric tool-response count of the same conversation is 1, a
value appearing in no component of the result. -/
theorem C6_counterexample :
    analyze_conversation msgsC6 =
      some (value_counts (roleColumn msgsC6), avg_length msgsC6, 0, none) ∧
    tool_responses_count msgsC6 = 1 ∧
    tool_calls_count msgsC6 ≠ tool_responses_count msgsC6 := by
  refine ⟨?_, rfl, by decide⟩
  rw [analyze_conversation, if_neg (by simp [msgsC6])]
  rfl

/-- C6 (amended): the analysis computes internally a tool-response count,
defined symmetrically to the tool-call count — the number of messages whose
tool_responses field is present and non-empty — but discards it: the value
is not among the four returned results (role counts, average lengths,
tool-call count, tool distribution). -/
theorem C6_response_count (msgs : List JValue)
    (harr : ∀ m ∈ msgs, toolFieldIsSeq m "tool_responses" = true)
    (hne : msgs ≠ []) :
    tool_responses_count msgs =
      (msgs.filter (fun m => presentNonEmptySeq m "tool_responses")).length ∧
    analyze_conversation msgs =
      some (value_counts (roleColumn msgs), avg_length msgs,
        tool_calls_count msgs, tool_distribution msgs) := by
  refine ⟨tool_responses_count_eq_spec msgs
    (fun m hm v hv => isArr_of_toolFieldIsSeq (harr m hm) hv), ?_⟩
  rw [analyze_conversation, if_neg (by simpa [List.isEmpty_iff] using hne)]

/-- C6, witness: the amended statement at the concrete one-message
conversation of the counterexample. -/
theorem C6_response_count_witness :
    tool_responses_count msgsC6 =
      (msgsC6.filter (fun m => presentNonEmptySeq m "tool_responses")).length ∧
    analyze_conversation msgsC6 =
      some (value_counts (roleColumn msgsC6), avg_length msgsC6,
        tool_calls_count msgsC6, tool_distribution msgsC6) :=
  C6_response_count msgsC6 (by decide) (by decide)

/-- C7: normalization replaces each span of the form two asterisks,
non-greedy non-empty content, two asterisks by its inner content, globally
across the string; the absent value and the empty string are returned
unchanged with no substitution attempted; the spec examples normalize as
stated, and any string without two adjacent asterisks — in particular one
with only unmatched single markers — is left unchanged. -/
theorem C7_normalize (s : String) (hnd : noDoubleStar s.toList = true) :
    normalize_text none = none ∧
    normalize_text (some "") = some "" ∧
    normalize_text (some "**bold** and plain") = some "bold and plain" ∧
    normalize_text (some "*not bold*") = some "*not bold*" ∧
    normalize_text (some "**a** and **b**") = some "a and b" ∧
    normalize_text (some s) = some s := by
  refine ⟨rfl, by simp [normalize_text], ?_, ?_, ?_, ?_⟩
  · simp [normalize_text, subBold, scanInner, closeAt]
  · simp [normalize_text, subBold, scanInner, closeAt]
  · simp [normalize_text, subBold, scanInner, closeAt]
  · rw [normalize_text]
    by_cases hs : s = ""
    · rw [if_pos hs]
    · rw [if_neg hs, subBold_id_of_noDoubleStar _ hnd, string_mk_toList]

/-- C7, witness: the normalization facts applied to a concrete string with
no double asterisks. -/
theorem C7_normalize_witness :
    normalize_text none = none ∧
    normalize_text (some "") = some "" ∧
    normalize_text (some "**bold** and plain") = some "bold and plain" ∧
    normalize_text (some "*not bold*") = some "*not bold*" ∧
    normalize_text (some "**a** and **b**") = some "a and b" ∧
    normalize_text (some "_hello_ *x*") = some "_hello_ *x*" :=
  C7_normalize "_hello_ *x*" (by decide)

/-- The conversation of the C8 counterexample: one message whose content is
the non-string sequence [1, 2, 3]. -/
def msgsC8bad : List JValue :=
  [JValue.obj [("role", JValue.str "user"),
    ("content", JValue.arr [JValue.num 1, JValue.num 2, JValue.num 3])]]

/-- C8, counterexample: the claim prescribes the undefined (NaN) average for
every role whose messages have non-string content; but pandas applies the
length function to sequence values of an object-dtype column, so a role
whose message content is the list [1, 2, 3] gets the numeric average 3, not
the NaN marker. -/
theorem C8_counterexample :
    avg_length msgsC8bad = [(JValue.str "user", some 3)] ∧
    (JValue.str "user", (none : Option ℚ)) ∉ avg_length msgsC8bad := by
  have h1 : avg_length msgsC8bad = [(JValue.str "user", meanOpt [some 3])] := rfl
  have h2 : meanOpt [some 3] = some 3 := by
    have h3 : meanOpt [some 3] = some (((3 : Nat) : ℚ) / ((1 : Nat) : ℚ)) := rfl
    rw [h3]
    norm_num
  rw [h1, h2]
  exact ⟨rfl, by simp⟩

/-- C8 (amended): the average-content-length metric groups messages by role
and takes the mean of the length of content, where a string contributes its
character count and a sequence or mapping contributes its element count; a
role all of whose messages have length-less content — null, boolean or
numeric — gets the undefined (NaN) average rather than an error or a
coerced default, while roles with sized contents get the true mean: two
strings of lengths 2 and 4 average to 3, and a two-element list averages
to 2. -/
theorem C8_avg_length (msgs : List JValue) (r : JValue)
    (hr : r ∈ roleColumn msgs)
    (hbad : ∀ m ∈ msgs, m.getField "role" = some r → contentLen m = none) :
    ((r, (none : Option ℚ)) ∈ avg_length msgs) ∧
    avg_length
        [JValue.obj [("role", JValue.str "user"), ("content", JValue.str "ab")],
         JValue.obj [("role", JValue.str "user"),
           ("content", JValue.str "abcd")]] =
      [(JValue.str "user", some 3)] ∧
    avg_length
        [JValue.obj [("role", JValue.str "t"),
          ("content", JValue.arr [JValue.null, JValue.null])]] =
      [(JValue.str "t", some 2)] := by
  refine ⟨avg_length_mem_none msgs r hr hbad, ?_, ?_⟩
  · have h1 : avg_length
        [JValue.obj [("role", JValue.str "user"), ("content", JValue.str "ab")],
         JValue.obj [("role", JValue.str "user"),
           ("content", JValue.str "abcd")]] =
        [(JValue.str "user", meanOpt [some 2, some 4])] := rfl
    have h2 : meanOpt [some 2, some 4] = some 3 := by
      have h3 : meanOpt [some 2, some 4] =
          some (((6 : Nat) : ℚ) / ((2 : Nat) : ℚ)) := rfl
      rw [h3]
      norm_num
    rw [h1, h2]
  · have h1 : avg_length
        [JValue.obj [("role", JValue.str "t"),
          ("content", JValue.arr [JValue.null, JValue.null])]] =
        [(JValue.str "t", meanOpt [some 2])] := rfl
    have h2 : meanOpt [some 2] = some 2 := by
      have h3 : meanOpt [some 2] =
          some (((2 : Nat) : ℚ) / ((1 : Nat) : ℚ)) := rfl
      rw [h3]
      norm_num
    rw [h1, h2]

/-- C8, witness: a role whose messages all carry null content gets the
undefined average. -/
theorem C8_avg_length_witness :
    ((JValue.str "user", (none : Option ℚ)) ∈ avg_length
      [JValue.obj [("role", JValue.str "user"), ("content", JValue.null)],
       JValue.obj [("role", JValue.str "tool"), ("content", JValue.str "x")]]) ∧
    avg_length
        [JValue.obj [("role", JValue.str "user"), ("content", JValue.str "ab")],
         JValue.obj [("role", JValue.str "user"),
           ("content", JValue.str "abcd")]] =
      [(JValue.str "user", some 3)] ∧
    avg_length
        [JValue.obj [("role", JValue.str "t"),
          ("content", JValue.arr [JValue.null, JValue.null])]] =
      [(JValue.str "t", some 2)] :=
  C8_avg_length _ (JValue.str "user") (by decide) (by decide)

end ConvViz
